import Mathlib

/-!
Verification development for the growlocal360-sdk repository.

The TypeScript sources are shallowly embedded as executable Lean
definitions.  External runtime primitives (Node's HMAC-SHA-256, the
HTTP client outcome, the filesystem) are passed in as explicit
parameters or oracle records, while every piece of decision logic that
the repository itself contains (hex decoding as performed by
Buffer.from(str, 'hex'), the 'sha256=' strip done with
String.replace, the slug pipeline, the catalog upsert/delete, the
extension choice for downloaded images, the error classification of
the registration client) is translated directly from the source.
-/

/-! ## Characters and hex encoding

Node's Buffer.from(s, 'hex') decodes byte pairs from the start of the
string and stops at the first character pair that is not two hex
digits; it never throws.  hexEncode models digest('hex'), which
produces lowercase hex. -/

def isHexDigit (c : Char) : Bool :=
  ('0' ≤ c && c ≤ '9') || ('a' ≤ c && c ≤ 'f') || ('A' ≤ c && c ≤ 'F')

def hexVal (c : Char) : Nat :=
  if '0' ≤ c && c ≤ '9' then c.toNat - 48
  else if 'a' ≤ c && c ≤ 'f' then c.toNat - 87
  else if 'A' ≤ c && c ≤ 'F' then c.toNat - 55
  else 0

def hexDigitChar (n : Nat) : Char :=
  if n < 10 then Char.ofNat (48 + n) else Char.ofNat (87 + n)

def hexEncode : List Nat → List Char
  | [] => []
  | b :: rest => hexDigitChar (b / 16) :: hexDigitChar (b % 16) :: hexEncode rest

def hexDecode : List Char → List Nat
  | c1 :: c2 :: rest =>
      if isHexDigit c1 && isHexDigit c2 then
        (hexVal c1 * 16 + hexVal c2) :: hexDecode rest
      else []
  | _ => []

/-- The spec-side notion of a fully valid hex string: every character a
hex digit and an even number of them. -/
def isFullValidHex (s : String) : Bool :=
  s.toList.all isHexDigit && s.toList.length % 2 = 0

/-! ## JavaScript String.replace(pat, repl) with a string pattern

JS replaces only the first occurrence of the pattern (anywhere in the
string, not only as a leading tag).  stripFirst models
s.replace(pat, '') over character lists. -/

def listStartsWith : List Char → List Char → Bool
  | [], _ => true
  | _ :: _, [] => false
  | p :: ps, c :: cs => p == c && listStartsWith ps cs

def stripFirst (pat : List Char) : List Char → List Char
  | [] => []
  | c :: rest =>
      if listStartsWith pat (c :: rest) then (c :: rest).drop pat.length
      else c :: stripFirst pat rest

/-- The scheme tag removed by verifyWebhook, the characters of
the literal 'sha256='. -/
def sha256Tag : List Char := ['s', 'h', 'a', '2', '5', '6', '=']

/-! ## A model of JSON.parse

verifyWebhook calls JSON.parse(body) after the signature comparison;
a parse error is thrown and caught by the surrounding try/catch.  The
parser below implements the JSON grammar (ECMA-404) over character
lists with explicit fuel; parseJson returns some value exactly when
JSON.parse succeeds. -/

inductive JsonValue where
  | null : JsonValue
  | bool (b : Bool) : JsonValue
  | num : JsonValue
  | str (s : String) : JsonValue
  | arr (items : List JsonValue) : JsonValue
  | obj (members : List (String × JsonValue)) : JsonValue

def jsonWsChar (c : Char) : Bool :=
  c = ' ' || c = '\t' || c = '\n' || c = '\r'

def skipWsL (l : List Char) : List Char := l.dropWhile jsonWsChar

/-- Parse the remainder of a JSON string literal, the opening quote
already consumed.  Unicode escapes outside the valid scalar range are
abstracted by Char.ofNat's default; the claims never depend on it. -/
def parseStringBody : List Char → Option (List Char × List Char)
  | [] => none
  | '\\' :: e :: rest =>
      if e = '"' || e = '\\' || e = '/' then
        (parseStringBody rest).map (fun p => (e :: p.1, p.2))
      else if e = 'b' then (parseStringBody rest).map (fun p => ('\x08' :: p.1, p.2))
      else if e = 'f' then (parseStringBody rest).map (fun p => ('\x0c' :: p.1, p.2))
      else if e = 'n' then (parseStringBody rest).map (fun p => ('\n' :: p.1, p.2))
      else if e = 'r' then (parseStringBody rest).map (fun p => ('\r' :: p.1, p.2))
      else if e = 't' then (parseStringBody rest).map (fun p => ('\t' :: p.1, p.2))
      else if e = 'u' then
        match rest with
        | h1 :: h2 :: h3 :: h4 :: rr =>
            if isHexDigit h1 && isHexDigit h2 && isHexDigit h3 && isHexDigit h4 then
              (parseStringBody rr).map (fun p =>
                (Char.ofNat (((hexVal h1 * 16 + hexVal h2) * 16 + hexVal h3) * 16 + hexVal h4) :: p.1, p.2))
            else none
        | _ => none
      else none
  | c :: rest =>
      if c = '"' then some ([], rest)
      else if c.toNat < 32 then none
      else (parseStringBody rest).map (fun p => (c :: p.1, p.2))

/-- Parse a JSON number token at the head of the input. -/
def parseNumberTok (s : List Char) : Option (JsonValue × List Char) :=
  let (s1, _neg) := match s with
    | '-' :: r => (r, true)
    | _ => (s, false)
  match s1 with
  | [] => none
  | c :: _ =>
      if c.isDigit then
        let intPart := s1.takeWhile Char.isDigit
        let r1 := s1.dropWhile Char.isDigit
        if intPart.length > 1 && intPart.headD 'x' = '0' then none
        else
          let afterFrac : Option (List Char) :=
            match r1 with
            | '.' :: r2 =>
                if (r2.takeWhile Char.isDigit).length = 0 then none
                else some (r2.dropWhile Char.isDigit)
            | _ => some r1
          match afterFrac with
          | none => none
          | some r3 =>
              match r3 with
              | 'e' :: r4 =>
                  let r5 := match r4 with
                    | '+' :: r => r
                    | '-' :: r => r
                    | _ => r4
                  if (r5.takeWhile Char.isDigit).length = 0 then none
                  else some (JsonValue.num, r5.dropWhile Char.isDigit)
              | 'E' :: r4 =>
                  let r5 := match r4 with
                    | '+' :: r => r
                    | '-' :: r => r
                    | _ => r4
                  if (r5.takeWhile Char.isDigit).length = 0 then none
                  else some (JsonValue.num, r5.dropWhile Char.isDigit)
              | _ => some (JsonValue.num, r3)
      else none

mutual

def parseValue : Nat → List Char → Option (JsonValue × List Char)
  | 0, _ => none
  | Nat.succ f, input =>
      let s := skipWsL input
      if listStartsWith ['n', 'u', 'l', 'l'] s then some (JsonValue.null, s.drop 4)
      else if listStartsWith ['t', 'r', 'u', 'e'] s then some (JsonValue.bool true, s.drop 4)
      else if listStartsWith ['f', 'a', 'l', 's', 'e'] s then some (JsonValue.bool false, s.drop 5)
      else
        match s with
        | '"' :: rest =>
            (parseStringBody rest).map (fun p => (JsonValue.str (String.mk p.1), p.2))
        | '[' :: rest =>
            match skipWsL rest with
            | ']' :: r2 => some (JsonValue.arr [], r2)
            | r1 => parseItems f r1 []
        | '\x7b' :: rest =>
            match skipWsL rest with
            | '\x7d' :: r2 => some (JsonValue.obj [], r2)
            | r1 => parseMembers f r1 []
        | _ => parseNumberTok s

def parseItems : Nat → List Char → List JsonValue → Option (JsonValue × List Char)
  | 0, _, _ => none
  | Nat.succ f, input, acc =>
      match parseValue f input with
      | none => none
      | some (v, rest) =>
          match skipWsL rest with
          | ',' :: r2 => parseItems f r2 (acc ++ [v])
          | ']' :: r2 => some (JsonValue.arr (acc ++ [v]), r2)
          | _ => none

def parseMembers : Nat → List Char → List (String × JsonValue) → Option (JsonValue × List Char)
  | 0, _, _ => none
  | Nat.succ f, input, acc =>
      match skipWsL input with
      | '"' :: rest =>
          match parseStringBody rest with
          | none => none
          | some (key, r1) =>
              match skipWsL r1 with
              | ':' :: r3 =>
                  match parseValue f r3 with
                  | none => none
                  | some (v, r4) =>
                      match skipWsL r4 with
                      | ',' :: r6 => parseMembers f r6 (acc ++ [(String.mk key, v)])
                      | '\x7d' :: r6 => some (JsonValue.obj (acc ++ [(String.mk key, v)]), r6)
                      | _ => none
              | _ => none
      | _ => none

end

/-- Model of JSON.parse: some parsed value on success, none when
JSON.parse would throw. -/
def parseJson (s : String) : Option JsonValue :=
  match parseValue (2 * s.toList.length + 4) s.toList with
  | some (v, rest) => if skipWsL rest = [] then some v else none
  | none => none

/-! ## verifyWebhook

Both copies of the SDK define the same verifyWebhook.  The HMAC-SHA256
primitive from Node's crypto is passed in as an explicit function from
secret and body to the 32 digest bytes.  timingSafeEqual throws a
RangeError when the two decoded buffers differ in length; the
surrounding try/catch converts that throw (and a JSON.parse throw)
into an isValid:false result, which the error kinds below record. -/

inductive VerifyError where
  | noSecret : VerifyError
  | invalidSignature : VerifyError
  | timingLengthMismatch : VerifyError
  | jsonParseFailure : VerifyError
deriving DecidableEq

structure WebhookVerificationResult where
  isValid : Bool
  payload : Option JsonValue
  error : Option VerifyError

/-- JS secret || config.secret followed by the !webhookSecret check:
an empty or absent explicit secret falls back to the configured one,
and an empty or absent effective secret is reported as missing. -/
def effectiveSecret (secret cfgSecret : Option String) : Option String :=
  let v := match secret with
    | some s => if s ≠ "" then some s else cfgSecret
    | none => cfgSecret
  match v with
  | some t => if t = "" then none else some t
  | none => none

namespace Index

/-- Embedding of GrowLocal360SDK.verifyWebhook from src/src/index.ts
lines 69-109. -/
def verifyWebhook (hmac : String → String → List Nat)
    (body signature : String) (secret cfgSecret : Option String) :
    WebhookVerificationResult :=
  match effectiveSecret secret cfgSecret with
  | none => ⟨false, none, some VerifyError.noSecret⟩
  | some ws =>
      let expectedSignature := hexEncode (hmac ws body)
      let cleanSignature := stripFirst sha256Tag signature.toList
      let expectedBytes := hexDecode expectedSignature
      let providedBytes := hexDecode cleanSignature
      if expectedBytes.length ≠ providedBytes.length then
        ⟨false, none, some VerifyError.timingLengthMismatch⟩
      else if expectedBytes ≠ providedBytes then
        ⟨false, none, some VerifyError.invalidSignature⟩
      else
        match parseJson body with
        | some payload => ⟨true, some payload, none⟩
        | none => ⟨false, none, some VerifyError.jsonParseFailure⟩

end Index

namespace Part001

/-- Embedding of GrowLocal360SDK.verifyWebhook from the unnamed copy
of the SDK (src/unnamed/part_001 lines 99-124). -/
def verifyWebhook (hmac : String → String → List Nat)
    (body signature : String) (secret cfgSecret : Option String) :
    WebhookVerificationResult :=
  match effectiveSecret secret cfgSecret with
  | none => ⟨false, none, some VerifyError.noSecret⟩
  | some ws =>
      let expectedSignature := hexEncode (hmac ws body)
      let cleanSignature := stripFirst sha256Tag signature.toList
      let expectedBytes := hexDecode expectedSignature
      let providedBytes := hexDecode cleanSignature
      if expectedBytes.length ≠ providedBytes.length then
        ⟨false, none, some VerifyError.timingLengthMismatch⟩
      else if expectedBytes ≠ providedBytes then
        ⟨false, none, some VerifyError.invalidSignature⟩
      else
        match parseJson body with
        | some payload => ⟨true, some payload, none⟩
        | none => ⟨false, none, some VerifyError.jsonParseFailure⟩

end Part001

/-! ## createSlug (src/unnamed/part_000 lines 143-145)

title.toLowerCase()
     .replace(/[^\w\s-]/g, '')
     .replace(/[\s_-]+/g, '-')
     .replace(/^-+|-+$/g, '')

\w is the ASCII word class [A-Za-z0-9_]; \s is the JS whitespace
class.  Each regex acts on character classes, so each replace is a
filter, a run collapse, and an end trim over the character list. -/

def jsIsSpaceChar (c : Char) : Bool :=
  c = ' ' || c = '\t' || c = '\n' || c.toNat = 11 || c.toNat = 12 || c = '\r' ||
  c.toNat = 0xa0 || c.toNat = 0x1680 || (0x2000 ≤ c.toNat && c.toNat ≤ 0x200a) ||
  c.toNat = 0x2028 || c.toNat = 0x2029 || c.toNat = 0x202f || c.toNat = 0x205f ||
  c.toNat = 0x3000 || c.toNat = 0xfeff

def jsWordChar (c : Char) : Bool := c.isAlphanum || c = '_'

/-- A character matched by the run class [\s_-]. -/
def slugRunChar (c : Char) : Bool := jsIsSpaceChar c || c = '_' || c = '-'

/-- Replace every maximal run of [\s_-] characters by a single hyphen. -/
def collapseRuns : List Char → List Char
  | [] => []
  | c :: rest =>
      if slugRunChar c then
        match rest with
        | [] => ['-']
        | d :: _ => if slugRunChar d then collapseRuns rest else '-' :: collapseRuns rest
      else c :: collapseRuns rest

/-- Remove the leading and the trailing run of hyphens. -/
def trimDashes (l : List Char) : List Char :=
  ((l.dropWhile (fun c => c = '-')).reverse.dropWhile (fun c => c = '-')).reverse

/-- Embedding of createSlug. -/
def createSlug (title : String) : String :=
  String.mk (trimDashes (collapseRuns
    ((title.toList.map Char.toLower).filter
      (fun c => jsWordChar c || jsIsSpaceChar c || c = '-'))))

/-- Modelled from the spec: the four-step reference definition of
slugify in section 4.3 - lowercase, remove any character that is not
alphanumeric, whitespace, or hyphen, collapse whitespace/underscore/
hyphen runs into one hyphen, trim hyphens at the ends.  Note step 2
removes underscores, as the spec's wording requires. -/
def slugifySpec (title : String) : String :=
  String.mk (trimDashes (collapseRuns
    ((title.toList.map Char.toLower).filter
      (fun c => Char.isAlphanum c || jsIsSpaceChar c || c = '-'))))

/-- The four-step reference with step 2 amended to also keep
underscores (which the source's \w class keeps and step 3 then turns
into hyphens). -/
def slugifySpecAmended (title : String) : String :=
  String.mk (trimDashes (collapseRuns
    ((title.toList.map Char.toLower).filter
      (fun c => Char.isAlphanum c || c = '_' || jsIsSpaceChar c || c = '-'))))

/-! ## The catalog (src/unnamed/part_000, webhook route)

data/jobs.json holds an array of job records; handleJobCreatedOrUpdated
and handleJobDeleted read it, transform it, and write it back.  The
pure catalog transformations are embedded here; JobData carries the
fields of the JobData interface from src/src/types.ts. -/

structure JobData where
  job_id : String
  job_title : String
  job_description : String
  job_city : String
  job_state : String
  job_date : String
  job_created_at : String
  job_images : List String
  job_site : String
  job_tags : String
  job_categories : String
  job_brand : String
  job_service : String
  job_zipcode : String
  job_brands : List String
  job_services : List String
  job_street : String
  employee : Option String
deriving DecidableEq

/-- A catalog entry: the incoming job data spread together with the
computed slug ( ...jobData, slug ). -/
structure StoredJob where
  data : JobData
  slug : String
deriving DecidableEq

/-- JS Array.prototype.findIndex: index of the first match, none in
place of -1. -/
def jsFindIndex {α : Type} (p : α → Bool) : List α → Option Nat
  | [] => none
  | a :: rest => if p a then some 0 else (jsFindIndex p rest).map (fun n => n + 1)

/-- Embedding of handleJobCreatedOrUpdated (part_000 lines 101-128)
restricted to its catalog transformation: recompute the slug from the
incoming title, replace in place when a record with the same job_id
exists, append otherwise. -/
def handleJobCreatedOrUpdated (jobs : List StoredJob) (jobData : JobData) :
    List StoredJob :=
  let slug := createSlug jobData.job_title
  let jobWithSlug : StoredJob := ⟨jobData, slug⟩
  match jsFindIndex (fun j => j.data.job_id == jobData.job_id) jobs with
  | some i => jobs.set i jobWithSlug
  | none => jobs ++ [jobWithSlug]

/-- Embedding of handleJobDeleted (part_000 lines 130-141): keep every
record whose job_id differs from the incoming one. -/
def handleJobDeleted (jobs : List StoredJob) (jobData : JobData) : List StoredJob :=
  jobs.filter (fun j => !(j.data.job_id == jobData.job_id))

/-- The sequence of job_id values of a catalog. -/
def catalogIds (jobs : List StoredJob) : List String :=
  jobs.map (fun j => j.data.job_id)

/-! ## downloadImage / downloadJobImages (src/src/index.ts lines 114-184)

The HTTP fetch and the filesystem are external; an ImgEnv record
supplies them: fetch returns none when axios.get throws, and write
returns false when mkdir or writeFile throws.  Every throw inside the
try block of downloadImage is caught and turns into returning the
original URL. -/

structure HttpResponse where
  data : List Nat
  contentType : Option String

structure ImgEnv where
  fetch : String → Option HttpResponse
  write : String → List Nat → Bool
  cwd : String

/-- imageUrl.split('.').pop()?.split('?')[0]: the substring after the
last dot (the whole string when there is no dot), truncated at the
first question mark. -/
def extFromUrl (url : String) : String :=
  String.mk (((url.toList.reverse.takeWhile (fun c => c ≠ '.')).reverse).takeWhile
    (fun c => c ≠ '?'))

def lowerStr (s : String) : String := String.mk (s.toList.map Char.toLower)

def extAllowList : List String := ["jpg", "jpeg", "png", "gif", "webp", "svg"]

def extMap : List (String × String) :=
  [("image/jpeg", "jpg"), ("image/png", "png"), ("image/gif", "gif"),
   ("image/webp", "webp"), ("image/svg+xml", "svg")]

def lookupExt (ct : String) : Option String :=
  (extMap.find? (fun p => p.1 == ct)).map (fun p => p.2)

/-- The extension chosen by downloadImage: the lowercased URL suffix
when it is in the allow-list, else the content-type table entry, else
the default jpg. -/
def chooseExtension (url : String) (contentType : Option String) : String :=
  let urlExtension := extFromUrl url
  if urlExtension ≠ "" && extAllowList.contains (lowerStr urlExtension) then
    lowerStr urlExtension
  else
    match contentType with
    | some ct => (lookupExt ct).getD "jpg"
    | none => "jpg"

/-- The filename job-(jobId)-(index).(ext) built by downloadImage. -/
def imageFilename (jobId : String) (index : Nat) (extension : String) : String :=
  "job-" ++ jobId ++ "-" ++ toString index ++ "." ++ extension

/-- Embedding of downloadImage: fetch, pick the extension, write under
join(cwd, publicDir, filename), and return the public path with the
leading 'public/' removed from publicDir (String.replace removes only
the first occurrence); any failure returns the original URL. -/
def downloadImage (env : ImgEnv) (imageUrl jobId : String) (index : Nat)
    (publicDir : String) : String :=
  match env.fetch imageUrl with
  | none => imageUrl
  | some response =>
      let extension := chooseExtension imageUrl response.contentType
      let filename := imageFilename jobId index extension
      let fullPublicDir := env.cwd ++ "/" ++ publicDir
      let filePath := fullPublicDir ++ "/" ++ filename
      if env.write filePath response.data then
        "/" ++ String.mk (stripFirst ("public/".toList) publicDir.toList) ++ "/" ++ filename
      else imageUrl

/-- The sequential loop of downloadJobImages, carrying the running
index. -/
def downloadLoop (env : ImgEnv) (jobId publicDir : String) :
    Nat → List String → List String
  | _, [] => []
  | i, url :: rest =>
      downloadImage env url jobId i publicDir :: downloadLoop env jobId publicDir (i + 1) rest

/-- Embedding of downloadJobImages (src/src/index.ts lines 165-184). -/
def downloadJobImages (env : ImgEnv) (jobData : JobData) (publicDir : String) :
    List String :=
  if jobData.job_images.length > 0 then
    downloadLoop env jobData.job_id publicDir 0 jobData.job_images
  else []

/-! ## registerWebhook / unregisterWebhook

Both SDK copies wrap one axios call in try/catch.  The outcome of the
call is external and passed in: success carries response.data
.webhook_id; a throw carries either an AxiosError (whose response is
absent for transport-level failures such as a refused connection) or
some other Error, or a non-Error value.  The copy in src/src/index.ts
branches on axios.isAxiosError(error) and interpolates
error.response?.status, so a response-less AxiosError produces the
string 'HTTP undefined: undefined'; the copy in src/unnamed/part_001
branches on error.response instead. -/

structure HttpErrorResponse where
  status : Nat
  statusText : String
deriving DecidableEq

inductive CallError where
  | axiosError (response : Option HttpErrorResponse) (message : String)
  | plainError (message : String)
  | nonErrorValue
deriving DecidableEq

inductive CallOutcome where
  | ok (webhookId : Option String)
  | thrown (e : CallError)
deriving DecidableEq

inductive DeleteOutcome where
  | ok
  | thrown (e : CallError)
deriving DecidableEq

structure WebhookRegistrationResponse where
  success : Bool
  webhook_id : Option String
  error : Option String
deriving DecidableEq

structure UnregisterResponse where
  success : Bool
  error : Option String
deriving DecidableEq

/-- JS template interpolation of a possibly-undefined number. -/
def jsShowOptNat : Option Nat → String
  | some n => toString n
  | none => "undefined"

/-- JS template interpolation of a possibly-undefined string. -/
def jsShowOptStr : Option String → String
  | some s => s
  | none => "undefined"

namespace Index

/-- Embedding of registerWebhook from src/src/index.ts lines 24-44.
webhookUrl and events shape the request but not the result mapping. -/
def registerWebhook (_webhookUrl : String) (_events : List String)
    (outcome : CallOutcome) : WebhookRegistrationResponse :=
  match outcome with
  | CallOutcome.ok wid => ⟨true, wid, none⟩
  | CallOutcome.thrown (CallError.axiosError response _) =>
      ⟨false, none, some ("HTTP " ++ jsShowOptNat (response.map (fun r => r.status)) ++
        ": " ++ jsShowOptStr (response.map (fun r => r.statusText)))⟩
  | CallOutcome.thrown (CallError.plainError m) => ⟨false, none, some m⟩
  | CallOutcome.thrown CallError.nonErrorValue => ⟨false, none, some "Unknown error"⟩

/-- Embedding of unregisterWebhook from src/src/index.ts lines 49-64. -/
def unregisterWebhook (_webhookId : String) (outcome : DeleteOutcome) :
    UnregisterResponse :=
  match outcome with
  | DeleteOutcome.ok => ⟨true, none⟩
  | DeleteOutcome.thrown (CallError.axiosError response _) =>
      ⟨false, some ("HTTP " ++ jsShowOptNat (response.map (fun r => r.status)) ++
        ": " ++ jsShowOptStr (response.map (fun r => r.statusText)))⟩
  | DeleteOutcome.thrown (CallError.plainError m) => ⟨false, some m⟩
  | DeleteOutcome.thrown CallError.nonErrorValue => ⟨false, some "Unknown error"⟩

end Index

namespace Part001

/-- Embedding of registerWebhook from src/unnamed/part_001 lines
55-78: the catch branches on error.response, so an AxiosError without
a response falls through to the Error-message branch. -/
def registerWebhook (_webhookUrl : String) (_events : List String)
    (outcome : CallOutcome) : WebhookRegistrationResponse :=
  match outcome with
  | CallOutcome.ok wid => ⟨true, wid, none⟩
  | CallOutcome.thrown (CallError.axiosError (some r) _) =>
      ⟨false, none, some ("HTTP " ++ toString r.status ++ ": " ++ r.statusText)⟩
  | CallOutcome.thrown (CallError.axiosError none m) => ⟨false, none, some m⟩
  | CallOutcome.thrown (CallError.plainError m) => ⟨false, none, some m⟩
  | CallOutcome.thrown CallError.nonErrorValue => ⟨false, none, some "Unknown error"⟩

/-- Embedding of unregisterWebhook from src/unnamed/part_001 lines
80-97. -/
def unregisterWebhook (_webhookId : String) (outcome : DeleteOutcome) :
    UnregisterResponse :=
  match outcome with
  | DeleteOutcome.ok => ⟨true, none⟩
  | DeleteOutcome.thrown (CallError.axiosError (some r) _) =>
      ⟨false, some ("HTTP " ++ toString r.status ++ ": " ++ r.statusText)⟩
  | DeleteOutcome.thrown (CallError.axiosError none m) => ⟨false, some m⟩
  | DeleteOutcome.thrown (CallError.plainError m) => ⟨false, some m⟩
  | DeleteOutcome.thrown CallError.nonErrorValue => ⟨false, some "Unknown error"⟩

end Part001

/-- A JobData value with the given id and title and empty remaining
fields, used by concrete witnesses. -/
def sampleJob (id title : String) : JobData :=
  ⟨id, title, "", "", "", "", "", [], "", "", "", "", "", "", [], [], "", none⟩

/-- A stand-in digest function used by concrete witnesses and
counterexamples: the claims settled with it do not depend on actual
HMAC-SHA-256 digest values, only on the digest being 32 bytes. -/
def hmacConst : String → String → List Nat := fun _ _ => List.replicate 32 0

theorem hexDigitChar_spec :
    ∀ n, n < 16 → isHexDigit (hexDigitChar n) = true ∧ hexVal (hexDigitChar n) = n := by
  decide

theorem hexEncode_all_hex :
    ∀ (bs : List Nat), (∀ b ∈ bs, b < 256) →
      ∀ c ∈ hexEncode bs, isHexDigit c = true := by
  intro bs
  induction bs with
  | nil => intro _ c hc; cases hc
  | cons b rest ih =>
    intro h c hc
    have hb : b < 256 := h b (List.mem_cons_self _ _)
    have h1 := hexDigitChar_spec (b / 16) (by omega)
    have h2 := hexDigitChar_spec (b % 16) (Nat.mod_lt _ (by omega))
    simp only [hexEncode, List.mem_cons] at hc
    rcases hc with rfl | rfl | hc
    · exact h1.1
    · exact h2.1
    · exact ih (fun x hx => h x (List.mem_cons_of_mem _ hx)) c hc

theorem hexDecode_hexEncode :
    ∀ (bs : List Nat), (∀ b ∈ bs, b < 256) → hexDecode (hexEncode bs) = bs := by
  intro bs
  induction bs with
  | nil => intro _; rfl
  | cons b rest ih =>
    intro h
    have hb : b < 256 := h b (List.mem_cons_self _ _)
    have h1 := hexDigitChar_spec (b / 16) (by omega)
    have h2 := hexDigitChar_spec (b % 16) (Nat.mod_lt _ (by omega))
    have hmod := Nat.div_add_mod b 16
    simp only [hexEncode, hexDecode, h1.1, h2.1, Bool.and_self, if_true, h1.2, h2.2]
    have hbeq : b / 16 * 16 + b % 16 = b := by omega
    rw [hbeq, ih (fun x hx => h x (List.mem_cons_of_mem _ hx))]

theorem sha256Tag_eq_toList : sha256Tag = "sha256=".toList := by decide

theorem stripFirst_append_tag (l : List Char) :
    stripFirst sha256Tag (sha256Tag ++ l) = l := by
  simp [sha256Tag, stripFirst, listStartsWith]

theorem stripFirst_of_all_hex :
    ∀ (l : List Char), (∀ c ∈ l, isHexDigit c = true) → stripFirst sha256Tag l = l := by
  intro l
  induction l with
  | nil => intro _; rfl
  | cons c rest ih =>
    intro h
    have hc : isHexDigit c = true := h c (List.mem_cons_self _ _)
    have hcs : c ≠ 's' := by
      intro hcs
      rw [hcs] at hc
      exact absurd hc (by decide)
    have hstart : listStartsWith sha256Tag (c :: rest) = false := by
      simp only [sha256Tag, listStartsWith, Bool.and_eq_false_iff]
      left
      simp [BEq.beq]
      exact fun he => hcs he.symm
    simp only [stripFirst, hstart, Bool.false_eq_true, if_false]
    rw [ih (fun x hx => h x (List.mem_cons_of_mem _ hx))]

/-! ## Helper lemmas about jsFindIndex, set and filter -/

theorem jsFindIndex_none_all {α : Type} (p : α → Bool) :
    ∀ (l : List α), jsFindIndex p l = none → ∀ x ∈ l, p x = false := by
  intro l
  induction l with
  | nil => intro _ x hx; cases hx
  | cons a rest ih =>
    intro h x hx
    by_cases hp : p a = true
    · simp [jsFindIndex, hp] at h
    · rcases List.mem_cons.mp hx with rfl | hx'
      · exact Bool.eq_false_iff.mpr hp
      · apply ih _ x hx'
        simp only [jsFindIndex, Bool.eq_false_iff.mpr hp, Bool.false_eq_true, if_false] at h
        exact Option.map_eq_none'.mp h

theorem filter_of_all_false {α : Type} (p : α → Bool) :
    ∀ (l : List α), (∀ x ∈ l, p x = false) → l.filter p = [] := by
  intro l
  induction l with
  | nil => intro _; rfl
  | cons a rest ih =>
    intro h
    have ha := h a (List.mem_cons_self _ _)
    simp only [List.filter, ha]
    exact ih (fun x hx => h x (List.mem_cons_of_mem _ hx))

theorem jsFindIndex_cons_zero {α : Type} (p : α → Bool) (x : α) (l : List α)
    (h : jsFindIndex p (x :: l) = some 0) : p x = true := by
  by_cases hp : p x = true
  · exact hp
  · exfalso
    simp only [jsFindIndex, Bool.eq_false_iff.mpr hp, Bool.false_eq_true, if_false] at h
    rcases Option.map_eq_some'.mp h with ⟨a, _, ha⟩
    omega

theorem jsFindIndex_cons_succ {α : Type} (p : α → Bool) (x : α) (l : List α) (i : Nat)
    (h : jsFindIndex p (x :: l) = some (i + 1)) :
    p x = false ∧ jsFindIndex p l = some i := by
  by_cases hp : p x = true
  · simp [jsFindIndex, hp] at h
  · refine ⟨Bool.eq_false_iff.mpr hp, ?_⟩
    simp only [jsFindIndex, Bool.eq_false_iff.mpr hp, Bool.false_eq_true, if_false] at h
    rcases Option.map_eq_some'.mp h with ⟨a, ha, hai⟩
    have : a = i := by omega
    rwa [this] at ha

theorem catalogIds_set_found (d : JobData) :
    ∀ (l : List StoredJob) (i : Nat) (v : StoredJob),
      jsFindIndex (fun j => j.data.job_id == d.job_id) l = some i →
      v.data.job_id = d.job_id →
      catalogIds (l.set i v) = catalogIds l := by
  intro l
  induction l with
  | nil => intro i v h _; simp [jsFindIndex] at h
  | cons x rest ih =>
    intro i v h hv
    cases i with
    | zero =>
      have hx := jsFindIndex_cons_zero _ _ _ h
      have hxid : x.data.job_id = d.job_id := by simpa using hx
      simp [catalogIds, hv, hxid]
    | succ i =>
      rcases jsFindIndex_cons_succ _ _ _ _ h with ⟨hpx, hrest⟩
      simp only [List.set_cons_succ, catalogIds, List.map_cons]
      have := ih i v hrest hv
      simp only [catalogIds] at this
      rw [this]

theorem filter_set_found (d : JobData) :
    ∀ (l : List StoredJob) (i : Nat) (v : StoredJob),
      (catalogIds l).Nodup →
      jsFindIndex (fun j => j.data.job_id == d.job_id) l = some i →
      v.data.job_id = d.job_id →
      (l.set i v).filter (fun j => j.data.job_id == d.job_id) = [v] := by
  intro l
  induction l with
  | nil => intro i v _ h _; simp [jsFindIndex] at h
  | cons x rest ih =>
    intro i v hnd h hv
    cases i with
    | zero =>
      have hx := jsFindIndex_cons_zero _ _ _ h
      have hxid : x.data.job_id = d.job_id := by simpa using hx
      have hnotin : x.data.job_id ∉ catalogIds rest := by
        simp only [catalogIds, List.map_cons, List.nodup_cons] at hnd
        exact hnd.1
      have hall : ∀ y ∈ rest, (y.data.job_id == d.job_id) = false := by
        intro y hy
        by_cases hyd : y.data.job_id = d.job_id
        · exfalso
          apply hnotin
          rw [hxid, ← hyd]
          exact List.mem_map_of_mem _ hy
        · simpa using hyd
      simp only [List.set_cons_zero, List.filter]
      have hvb : (v.data.job_id == d.job_id) = true := by simpa using hv
      rw [hvb]
      rw [filter_of_all_false _ rest hall]
    | succ i =>
      rcases jsFindIndex_cons_succ _ _ _ _ h with ⟨hpx, hrest⟩
      have hnd' : (catalogIds rest).Nodup := by
        simp only [catalogIds, List.map_cons, List.nodup_cons] at hnd
        exact hnd.2
      simp only [List.set_cons_succ, List.filter, hpx]
      exact ih i v hnd' hrest hv

/-- Upsert keeps job_id values pairwise distinct. -/
theorem upsert_preserves_nodup (jobs : List StoredJob) (d : JobData)
    (hnd : (catalogIds jobs).Nodup) :
    (catalogIds (handleJobCreatedOrUpdated jobs d)).Nodup := by
  unfold handleJobCreatedOrUpdated
  cases hfi : jsFindIndex (fun j => j.data.job_id == d.job_id) jobs with
  | none =>
    have hall := jsFindIndex_none_all _ jobs hfi
    have hnotin : d.job_id ∉ catalogIds jobs := by
      intro hmem
      rcases List.mem_map.mp hmem with ⟨y, hy, hyid⟩
      have := hall y hy
      simp [hyid] at this
    simp only [catalogIds, List.map_append, List.map_cons, List.map_nil]
    rw [List.nodup_append]
    refine ⟨hnd, List.nodup_singleton _, ?_⟩
    intro a ha hb
    simp only [List.mem_singleton] at hb
    subst hb
    exact hnotin ha
  | some i =>
    rw [catalogIds_set_found d jobs i _ hfi rfl]
    exact hnd

/-- After an upsert the records matching the incoming job_id are
exactly the freshly stored record. -/
theorem upsert_filter_eq (jobs : List StoredJob) (d : JobData)
    (hnd : (catalogIds jobs).Nodup) :
    (handleJobCreatedOrUpdated jobs d).filter (fun j => j.data.job_id == d.job_id) =
      [⟨d, createSlug d.job_title⟩] := by
  unfold handleJobCreatedOrUpdated
  cases hfi : jsFindIndex (fun j => j.data.job_id == d.job_id) jobs with
  | none =>
    have hall := jsFindIndex_none_all _ jobs hfi
    rw [List.filter_append, filter_of_all_false _ jobs hall]
    simp
  | some i =>
    exact filter_set_found d jobs i _ hnd hfi rfl

/-- C3: catalog upsert preserves uniqueness of job_id; upserting the
same job_id twice leaves exactly one record for it, carrying the
latest field values and a slug recomputed from the latest title; a new
job_id is appended at the end and an existing one is replaced in
place. -/
theorem C3_upsert_unique_latest (jobs : List StoredJob) (d d2 : JobData)
    (hnd : (catalogIds jobs).Nodup) (_hid : d.job_id = d2.job_id) :
    (catalogIds (handleJobCreatedOrUpdated jobs d)).Nodup ∧
    (handleJobCreatedOrUpdated (handleJobCreatedOrUpdated jobs d) d2).filter
        (fun j => j.data.job_id == d2.job_id) = [⟨d2, createSlug d2.job_title⟩] ∧
    handleJobCreatedOrUpdated jobs d =
      (match jsFindIndex (fun j => j.data.job_id == d.job_id) jobs with
       | some i => jobs.set i ⟨d, createSlug d.job_title⟩
       | none => jobs ++ [⟨d, createSlug d.job_title⟩]) := by
  refine ⟨upsert_preserves_nodup jobs d hnd, ?_, rfl⟩
  exact upsert_filter_eq _ d2 (upsert_preserves_nodup jobs d hnd)

/-- C3 witness: a concrete double upsert of job_id 1. -/
theorem C3_upsert_unique_latest_witness :
    (catalogIds ([] : List StoredJob)).Nodup ∧
    (sampleJob "1" "A").job_id = (sampleJob "1" "B Title").job_id ∧
    ((catalogIds (handleJobCreatedOrUpdated ([] : List StoredJob) (sampleJob "1" "A"))).Nodup ∧
     (handleJobCreatedOrUpdated (handleJobCreatedOrUpdated ([] : List StoredJob) (sampleJob "1" "A"))
         (sampleJob "1" "B Title")).filter
         (fun j => j.data.job_id == (sampleJob "1" "B Title").job_id) =
       [⟨sampleJob "1" "B Title", createSlug (sampleJob "1" "B Title").job_title⟩] ∧
     handleJobCreatedOrUpdated ([] : List StoredJob) (sampleJob "1" "A") =
       (match jsFindIndex (fun j => j.data.job_id == (sampleJob "1" "A").job_id)
           ([] : List StoredJob) with
        | some i => List.set ([] : List StoredJob) i
            ⟨sampleJob "1" "A", createSlug (sampleJob "1" "A").job_title⟩
        | none => ([] : List StoredJob) ++
            [⟨sampleJob "1" "A", createSlug (sampleJob "1" "A").job_title⟩])) :=
  ⟨by decide, by decide,
   C3_upsert_unique_latest [] (sampleJob "1" "A") (sampleJob "1" "B Title")
     (by decide) (by decide)⟩

/-- C7: deleting a job_id that is not in the catalog leaves every
record (and their order) unchanged; the operation is total, so absence
is a no-op rather than an error. -/
theorem C7_delete_absent_noop (jobs : List StoredJob) (jobData : JobData)
    (h : ∀ r ∈ jobs, r.data.job_id ≠ jobData.job_id) :
    handleJobDeleted jobs jobData = jobs := by
  unfold handleJobDeleted
  rw [List.filter_eq_self]
  intro a ha
  simpa using h a ha

/-- C7 witness: deleting job_id 2 from a catalog holding only job_id 1. -/
theorem C7_delete_absent_noop_witness :
    (∀ r ∈ [(⟨sampleJob "1" "A", "a"⟩ : StoredJob)],
        r.data.job_id ≠ (sampleJob "2" "B").job_id) ∧
    handleJobDeleted [⟨sampleJob "1" "A", "a"⟩] (sampleJob "2" "B") =
      [⟨sampleJob "1" "A", "a"⟩] :=
  ⟨by decide, C7_delete_absent_noop _ _ (by decide)⟩

/-- C5 counterexample: the source keeps underscores (the \w class)
in its removal step and only step 3 turns them into hyphens, while
the spec's step 2 removes any character that is not alphanumeric,
whitespace, or hyphen, hence removes underscores.  On the title
a_b the two disagree. -/
theorem C5_counterexample :
    createSlug "a_b" ≠ slugifySpec "a_b" ∧
    createSlug "a_b" = "a-b" ∧ slugifySpec "a_b" = "ab" := by
  refine ⟨?_, by decide, by decide⟩
  decide

/-- C5 (amended): createSlug is the pure four-step pipeline with step
2 amended to also keep underscores (which step 3 then collapses into
hyphens), and createSlug of the spec's example title is
plumbing-repair-4th-st. -/
theorem C5_slug_four_step_amended :
    (∀ t, createSlug t = slugifySpecAmended t) ∧
    createSlug "Plumbing Repair – 4th St!" = "plumbing-repair-4th-st" := by
  refine ⟨?_, by decide⟩
  intro t
  simp only [createSlug, slugifySpecAmended, jsWordChar, Bool.or_assoc]

/-- C6: verifyWebhook treats a signature carrying the sha256= scheme
tag and the bare hex signature identically: for every body, explicit
and configured secret, and hex digest string, the two calls return the
same result. -/
theorem C6_scheme_tag_equivalent (hmac : String → String → List Nat)
    (body h : String) (secret cfgSecret : Option String)
    (hhex : ∀ c ∈ h.toList, isHexDigit c = true) :
    Index.verifyWebhook hmac body ("sha256=" ++ h) secret cfgSecret =
      Index.verifyWebhook hmac body h secret cfgSecret := by
  obtain ⟨l⟩ := h
  have h1 : stripFirst sha256Tag ("sha256=" ++ String.mk l).toList = l := by
    have he : ("sha256=" ++ String.mk l).toList = sha256Tag ++ l := by
      rw [sha256Tag_eq_toList]; rfl
    rw [he, stripFirst_append_tag]
  have h2 : stripFirst sha256Tag (String.mk l).toList = l :=
    stripFirst_of_all_hex l (by simpa using hhex)
  simp only [Index.verifyWebhook, h1, h2]

/-- C6 witness: a concrete digest string accepted in both forms. -/
theorem C6_scheme_tag_equivalent_witness :
    (∀ c ∈ "ab".toList, isHexDigit c = true) ∧
    Index.verifyWebhook hmacConst "\x7b\x7d" ("sha256=" ++ "ab") (some "s") none =
      Index.verifyWebhook hmacConst "\x7b\x7d" "ab" (some "s") none :=
  ⟨by decide,
   C6_scheme_tag_equivalent hmacConst "\x7b\x7d" "ab" (some "s") none (by decide)⟩

/-- C1 counterexample: with the body x (which is not JSON) and the
non-empty secret s, the correctly signed call returns isValid false,
because verifyWebhook parses the body with JSON.parse after the
signature comparison and the catch turns the parse throw into a
failure result.  The digest function is instantiated with a concrete
32-byte stand-in; the signature below is its hex digest for this body
and secret, so the comparison succeeds whatever the digest values
are, and only the JSON parse decides the outcome. -/
theorem C1_counterexample :
    (Index.verifyWebhook hmacConst "x"
      (String.mk (hexEncode (hmacConst "s" "x"))) (some "s") none).isValid = false := by
  decide

/-- C1 (amended): for every digest function producing bytes, every
body that JSON.parse accepts, and every non-empty secret, the call
with the body's correct hex signature returns isValid true. -/
theorem C1_valid_signature_accepted (hmac : String → String → List Nat)
    (body secret : String) (cfgSecret : Option String)
    (hbytes : ∀ b ∈ hmac secret body, b < 256)
    (hsecret : secret ≠ "")
    (hjson : (parseJson body).isSome = true) :
    (Index.verifyWebhook hmac body
      (String.mk (hexEncode (hmac secret body))) (some secret) cfgSecret).isValid = true := by
  have hsec : effectiveSecret (some secret) cfgSecret = some secret := by
    simp [effectiveSecret, hsecret]
  have hclean : stripFirst sha256Tag (hexEncode (hmac secret body)) =
      hexEncode (hmac secret body) :=
    stripFirst_of_all_hex _ (hexEncode_all_hex _ hbytes)
  have hdec : hexDecode (hexEncode (hmac secret body)) = hmac secret body :=
    hexDecode_hexEncode _ hbytes
  obtain ⟨p, hp⟩ := Option.isSome_iff_exists.mp hjson
  simp [Index.verifyWebhook, hsec, hclean, hdec, hp]

/-- C1 witness: the concrete body with an object payload and the
secret s are accepted with their correct signature. -/
theorem C1_valid_signature_accepted_witness :
    (∀ b ∈ hmacConst "s" "\x7b\x7d", b < 256) ∧ ("s" ≠ "") ∧
    (parseJson "\x7b\x7d").isSome = true ∧
    (Index.verifyWebhook hmacConst "\x7b\x7d"
      (String.mk (hexEncode (hmacConst "s" "\x7b\x7d"))) (some "s") none).isValid = true :=
  ⟨by decide, by decide, by decide,
   C1_valid_signature_accepted hmacConst "\x7b\x7d" "s" none
     (by decide) (by decide) (by decide)⟩

/-- C2 counterexample: a provided signature that is not valid hex (the
correct 64 hex digits followed by zz) is accepted as valid, not
rejected: Buffer.from(sig, 'hex') decodes the longest valid prefix of
byte pairs and silently drops the trailing garbage, so the decoded
bytes equal the expected digest and verification succeeds (the body
here is a JSON object so the final parse also succeeds). -/
theorem C2_counterexample :
    isFullValidHex (String.mk (hexEncode (hmacConst "s" "\x7b\x7d")) ++ "zz") = false ∧
    (Index.verifyWebhook hmacConst "\x7b\x7d"
      (String.mk (hexEncode (hmacConst "s" "\x7b\x7d")) ++ "zz")
      (some "s") none).isValid = true := by
  refine ⟨by decide, ?_⟩
  decide

/-- C2 (amended): whenever the cleaned provided signature hex-decodes
(by the longest-valid-prefix decoding of Buffer.from) to a byte count
other than the 32-byte digest length, verifyWebhook deterministically
returns a failure result: isValid false with an error.  The throw of
timingSafeEqual on mismatched buffer lengths is caught by the
function's try/catch, so nothing escapes its boundary; a not-valid-hex
signature whose decoded prefix happens to hold exactly 32 bytes is
instead compared by those bytes and can succeed, as the counterexample
shows. -/
theorem C2_wrong_length_rejected (hmac : String → String → List Nat)
    (body sig : String) (secret cfgSecret : Option String)
    (hhmac : ∀ s b, (hmac s b).length = 32 ∧ ∀ x ∈ hmac s b, x < 256)
    (hlen : (hexDecode (stripFirst sha256Tag sig.toList)).length ≠ 32) :
    (Index.verifyWebhook hmac body sig secret cfgSecret).isValid = false ∧
    (Index.verifyWebhook hmac body sig secret cfgSecret).error.isSome = true := by
  cases hsec : effectiveSecret secret cfgSecret with
  | none => simp [Index.verifyWebhook, hsec]
  | some ws =>
    have hdec : hexDecode (hexEncode (hmac ws body)) = hmac ws body :=
      hexDecode_hexEncode _ (hhmac ws body).2
    have hl : (hexDecode (hexEncode (hmac ws body))).length = 32 := by
      rw [hdec]; exact (hhmac ws body).1
    simp only [Index.verifyWebhook, hsec, hl]
    rw [if_pos (by omega)]
    exact ⟨rfl, rfl⟩

/-- The stand-in digest function is well formed: 32 bytes, each below
256. -/
theorem hmacConst_wf :
    ∀ s b, (hmacConst s b).length = 32 ∧ ∀ x ∈ hmacConst s b, x < 256 := by
  intro s b
  refine ⟨rfl, ?_⟩
  intro x hx
  have := List.eq_of_mem_replicate hx
  omega

/-- C2 witness: the three-character signature abc decodes to one byte,
and the call fails with an error. -/
theorem C2_wrong_length_rejected_witness :
    (hexDecode (stripFirst sha256Tag "abc".toList)).length ≠ 32 ∧
    (Index.verifyWebhook hmacConst "\x7b\x7d" "abc" (some "s") none).isValid = false ∧
    (Index.verifyWebhook hmacConst "\x7b\x7d" "abc" (some "s") none).error.isSome = true :=
  ⟨by decide,
   (C2_wrong_length_rejected hmacConst "\x7b\x7d" "abc" (some "s") none
     hmacConst_wf (by decide)).1,
   (C2_wrong_length_rejected hmacConst "\x7b\x7d" "abc" (some "s") none
     hmacConst_wf (by decide)).2⟩

/-- C10: the verifyWebhook in src/src/index.ts and the copy in
src/unnamed/part_001 are the same function: for every digest function,
body, signature, explicit secret and configured secret they return the
same result.  The two sources are line-for-line the same logic. -/
theorem C10_verify_impls_equal :
    ∀ (hmac : String → String → List Nat) (body sig : String)
      (secret cfgSecret : Option String),
      Index.verifyWebhook hmac body sig secret cfgSecret =
        Part001.verifyWebhook hmac body sig secret cfgSecret :=
  fun _ _ _ _ _ => rfl

/-- The sequential download loop returns one entry per input URL. -/
theorem downloadLoop_length (env : ImgEnv) (jobId publicDir : String) :
    ∀ (urls : List String) (i : Nat),
      (downloadLoop env jobId publicDir i urls).length = urls.length := by
  intro urls
  induction urls with
  | nil => intro i; rfl
  | cons x rest ih =>
    intro i
    simp only [downloadLoop, List.length_cons, ih]

/-- Position k of the loop output is the materialization of input k
with index start + k. -/
theorem downloadLoop_getElem (env : ImgEnv) (jobId publicDir : String) :
    ∀ (urls : List String) (i k : Nat),
      (downloadLoop env jobId publicDir i urls)[k]? =
        (urls[k]?).map (fun url => downloadImage env url jobId (i + k) publicDir) := by
  intro urls
  induction urls with
  | nil => intro i k; simp [downloadLoop]
  | cons x rest ih =>
    intro i k
    cases k with
    | zero => simp [downloadLoop]
    | succ k =>
      simp only [downloadLoop, List.getElem?_cons_succ, ih (i + 1) k]
      have harith : i + 1 + k = i + (k + 1) := by omega
      rw [harith]

/-- C4: downloadJobImages returns exactly one entry per input image,
in input order, position i holding downloadImage of image i with index
i; a failing image yields its original URL without affecting the other
positions, and downloadImage is total: a failed fetch or a failed
write returns the original remote URL unchanged. -/
theorem C4_materialize_all_order_and_degrade (env : ImgEnv) (jobData : JobData)
    (publicDir : String) :
    (downloadJobImages env jobData publicDir).length = jobData.job_images.length ∧
    (∀ i : Nat, (downloadJobImages env jobData publicDir)[i]? =
      (jobData.job_images[i]?).map
        (fun url => downloadImage env url jobData.job_id i publicDir)) ∧
    (∀ url jobId idx pd, env.fetch url = none →
      downloadImage env url jobId idx pd = url) ∧
    (∀ url jobId idx pd resp, env.fetch url = some resp →
      env.write (env.cwd ++ "/" ++ pd ++ "/" ++
        imageFilename jobId idx (chooseExtension url resp.contentType)) resp.data = false →
      downloadImage env url jobId idx pd = url) := by
  refine ⟨?_, ?_, ?_, ?_⟩
  · cases himg : jobData.job_images with
    | nil => simp [downloadJobImages, himg]
    | cons x rest => simp [downloadJobImages, himg, downloadLoop_length]
  · intro i
    cases himg : jobData.job_images with
    | nil => simp [downloadJobImages, himg]
    | cons x rest =>
      simp only [downloadJobImages, himg, List.length_cons]
      rw [if_pos (by omega)]
      have := downloadLoop_getElem env jobData.job_id publicDir (x :: rest) 0 i
      simpa using this
  · intro url jobId idx pd h
    simp [downloadImage, h]
  · intro url jobId idx pd resp hfetch hwrite
    simp only [downloadImage, hfetch, imageFilename] at hwrite ⊢
    rw [hwrite]
    simp

/-- C4 witness: a failing fetch and a failing write both degrade to
the original URL, at concrete inputs. -/
theorem C4_materialize_all_order_and_degrade_witness :
    ((⟨fun _ => none, fun _ _ => false, "/cwd"⟩ : ImgEnv).fetch "http://a/x.png" = none) ∧
    downloadImage ⟨fun _ => none, fun _ _ => false, "/cwd"⟩
      "http://a/x.png" "42" 0 "public/jobs" = "http://a/x.png" ∧
    ((⟨fun _ => some ⟨[7], none⟩, fun _ _ => false, "/cwd"⟩ : ImgEnv).fetch "u" =
      some ⟨[7], none⟩) ∧
    ((⟨fun _ => some ⟨[7], none⟩, fun _ _ => false, "/cwd"⟩ : ImgEnv).write
      ((⟨fun _ => some ⟨[7], none⟩, fun _ _ => false, "/cwd"⟩ : ImgEnv).cwd ++ "/" ++
        "public/jobs" ++ "/" ++ imageFilename "42" 0 (chooseExtension "u" none)) [7] = false) ∧
    downloadImage ⟨fun _ => some ⟨[7], none⟩, fun _ _ => false, "/cwd"⟩
      "u" "42" 0 "public/jobs" = "u" :=
  ⟨rfl,
   (C4_materialize_all_order_and_degrade ⟨fun _ => none, fun _ _ => false, "/cwd"⟩
      (sampleJob "42" "T") "public/jobs").2.2.1 "http://a/x.png" "42" 0 "public/jobs" rfl,
   rfl, rfl,
   (C4_materialize_all_order_and_degrade ⟨fun _ => some ⟨[7], none⟩, fun _ _ => false, "/cwd"⟩
      (sampleJob "42" "T") "public/jobs").2.2.2 "u" "42" 0 "public/jobs" ⟨[7], none⟩ rfl rfl⟩

/-- C8: a successfully materialized image is stored under the name
job-(jobId)-(index).(ext) (the returned public reference carries the
same name), and ext follows the three tiers of the source: the
lowercased URL suffix when non-empty and in the allow-list, else the
content-type table entry with default jpg, else jpg. -/
theorem C8_filename_and_extension (env : ImgEnv) (url jobId : String) (idx : Nat)
    (pd : String) (resp : HttpResponse)
    (hfetch : env.fetch url = some resp)
    (hwrite : env.write (env.cwd ++ "/" ++ pd ++ "/" ++
      imageFilename jobId idx (chooseExtension url resp.contentType)) resp.data = true) :
    downloadImage env url jobId idx pd =
      "/" ++ String.mk (stripFirst ("public/".toList) pd.toList) ++ "/" ++
        imageFilename jobId idx (chooseExtension url resp.contentType) ∧
    (extFromUrl url ≠ "" ∧ extAllowList.contains (lowerStr (extFromUrl url)) = true →
      chooseExtension url resp.contentType = lowerStr (extFromUrl url)) ∧
    ((extFromUrl url = "" ∨ extAllowList.contains (lowerStr (extFromUrl url)) = false) →
      chooseExtension url resp.contentType =
        (match resp.contentType with
         | some ct => (lookupExt ct).getD "jpg"
         | none => "jpg")) := by
  refine ⟨?_, ?_, ?_⟩
  · simp only [downloadImage, hfetch, imageFilename] at hwrite ⊢
    rw [hwrite]
    simp
  · intro h
    simp only [chooseExtension]
    split
    · rfl
    · rename_i hcond
      exfalso
      apply hcond
      rw [h.2, Bool.and_true, decide_eq_true_eq]
      exact h.1
  · intro h
    simp only [chooseExtension]
    split
    · rename_i hcond
      exfalso
      rcases h with h | h
      · simp [h] at hcond
      · rw [h, Bool.and_false] at hcond
        cases hcond
    · rfl

/-- C8 witness: a URL with suffix PNG behind a query string is stored
as job-42-3.png under the jobs public path. -/
theorem C8_filename_and_extension_witness :
    ((⟨fun _ => some ⟨[7], some "image/png"⟩, fun _ _ => true, "/cwd"⟩ : ImgEnv).fetch
      "http://a/img.PNG?v=1" = some ⟨[7], some "image/png"⟩) ∧
    chooseExtension "http://a/img.PNG?v=1" (some "image/png") = "png" ∧
    imageFilename "42" 3 "png" = "job-42-3.png" ∧
    downloadImage ⟨fun _ => some ⟨[7], some "image/png"⟩, fun _ _ => true, "/cwd"⟩
        "http://a/img.PNG?v=1" "42" 3 "public/jobs" =
      "/" ++ String.mk (stripFirst ("public/".toList) "public/jobs".toList) ++ "/" ++
        imageFilename "42" 3 (chooseExtension "http://a/img.PNG?v=1" (some "image/png")) :=
  ⟨rfl, by decide, by decide,
   (C8_filename_and_extension ⟨fun _ => some ⟨[7], some "image/png"⟩, fun _ _ => true, "/cwd"⟩
      "http://a/img.PNG?v=1" "42" 3 "public/jobs" ⟨[7], some "image/png"⟩ rfl rfl).1⟩

/-- C9 counterexample: in src/src/index.ts a transport failure (an
AxiosError with no HTTP response, as axios produces for a refused
connection) is routed through the isAxiosError branch, so the
structured result reads HTTP undefined: undefined - it carries
neither an HTTP status nor the underlying cause, contradicting the
claimed classification.  The part_001 copy does carry the cause. -/
theorem C9_counterexample :
    (Index.registerWebhook "https://example.com/hook" ["job.created"]
      (CallOutcome.thrown (CallError.axiosError none "connect ECONNREFUSED"))).error =
      some "HTTP undefined: undefined" ∧
    (Index.registerWebhook "https://example.com/hook" ["job.created"]
      (CallOutcome.thrown (CallError.axiosError none "connect ECONNREFUSED"))).error ≠
      some "connect ECONNREFUSED" ∧
    (Part001.registerWebhook "https://example.com/hook" ["job.created"]
      (CallOutcome.thrown (CallError.axiosError none "connect ECONNREFUSED"))).error =
      some "connect ECONNREFUSED" := by
  refine ⟨rfl, ?_, rfl⟩
  decide

/-- C9 (amended): registerWebhook and unregisterWebhook are total
result mappings - no outcome of the HTTP call escapes as a throw -
and classify outcomes as follows: success gives success true; an
axios error with an HTTP response gives HTTP status: statusText; a
non-axios Error carries its message; a non-Error throw reads Unknown
error.  For an axios transport error without a response, the index.ts
copy reports HTTP undefined: undefined (dropping the cause), while
the part_001 copy carries the cause message. -/
theorem C9_structured_results :
    (∀ u ev wid, Index.registerWebhook u ev (CallOutcome.ok wid) =
      ⟨true, wid, none⟩) ∧
    (∀ u ev r m, Index.registerWebhook u ev
        (CallOutcome.thrown (CallError.axiosError (some r) m)) =
      ⟨false, none, some ("HTTP " ++ toString r.status ++ ": " ++ r.statusText)⟩) ∧
    (∀ u ev m, Index.registerWebhook u ev
        (CallOutcome.thrown (CallError.axiosError none m)) =
      ⟨false, none, some "HTTP undefined: undefined"⟩) ∧
    (∀ u ev m, Index.registerWebhook u ev
        (CallOutcome.thrown (CallError.plainError m)) = ⟨false, none, some m⟩) ∧
    (∀ u ev, Index.registerWebhook u ev
        (CallOutcome.thrown CallError.nonErrorValue) =
      ⟨false, none, some "Unknown error"⟩) ∧
    (∀ u, Index.unregisterWebhook u DeleteOutcome.ok = ⟨true, none⟩) ∧
    (∀ u r m, Index.unregisterWebhook u
        (DeleteOutcome.thrown (CallError.axiosError (some r) m)) =
      ⟨false, some ("HTTP " ++ toString r.status ++ ": " ++ r.statusText)⟩) ∧
    (∀ u m, Index.unregisterWebhook u
        (DeleteOutcome.thrown (CallError.axiosError none m)) =
      ⟨false, some "HTTP undefined: undefined"⟩) ∧
    (∀ u m, Index.unregisterWebhook u
        (DeleteOutcome.thrown (CallError.plainError m)) = ⟨false, some m⟩) ∧
    (∀ u ev m, Part001.registerWebhook u ev
        (CallOutcome.thrown (CallError.axiosError none m)) = ⟨false, none, some m⟩) ∧
    (∀ u m, Part001.unregisterWebhook u
        (DeleteOutcome.thrown (CallError.axiosError none m)) = ⟨false, some m⟩) :=
  ⟨fun _ _ _ => rfl, fun _ _ _ _ => rfl, fun _ _ _ => rfl, fun _ _ _ => rfl,
   fun _ _ => rfl, fun _ => rfl, fun _ _ _ => rfl, fun _ _ => rfl, fun _ _ => rfl,
   fun _ _ _ => rfl, fun _ _ => rfl⟩
